import Mathlib

/-!
Shallow embedding of the CRP-Trial repository (Tomitschek/CRP-Trial).

The repository generates synthetic C-reactive-protein trajectories for a
treated and a control group (`generate_crp_data` in
src/crptrial/generate/generator.py, duplicated in src/src/generate.py) and
analyzes them (`analyze_data`, `analyze_crp_data`, `time_to_normalize` in
src/src/analyse.py; the copy in src/crptrial/analysis/stats.py is garbled
from line 56 on and is syntactically invalid Python).

Randomness model: numpy's seeded generator is modelled by fixed streams of
raw draws consumed in program order.  `np.random.normal(mu, sigma)` consumes
the next raw standard-normal draw z and yields mu + sigma * z;
`np.random.exponential(s)` consumes the next raw standard-exponential draw
e (e >= 0 for the real distribution; stated as a hypothesis where needed)
and yields s * e; `np.random.randint` consumes the next raw integer draw.
Each distribution family reads its own stream; within a family the draws
are consumed strictly in order, which is what the claims about draw
freshness and draw order refer to.
-/

/-- The `group` column: the source uses the strings 'treated' and 'control'. -/
inductive StudyGroup where
  | treated : StudyGroup
  | control : StudyGroup
deriving DecidableEq, Repr

/-- One row of the tidy dataset: (patient_id, group, day, crp).  The crp
column is a pandas float column, so a missing value (NaN) is modelled by
`none`; the generator always stores an actual value. -/
structure Obs where
  patient_id : ℕ
  group : StudyGroup
  day : ℕ
  crp : Option ℝ

/-- Fixed streams of raw random draws (see the module docstring):
`nrm` are raw standard-normal draws, `ex` raw standard-exponential draws. -/
structure Rng where
  nrm : ℕ → ℝ
  ex : ℕ → ℝ

/-- A consumption position in the two real-valued streams:
first component = normals consumed so far, second = exponentials. -/
abbrev Pos := ℕ × ℕ

/-- np.random.normal(mu, sigma): mu + sigma * z, z the next raw normal draw. -/
def Rng.normal (g : Rng) (μ σ : ℝ) (p : Pos) : ℝ × Pos :=
  (μ + σ * g.nrm p.1, (p.1 + 1, p.2))

/-- np.random.exponential(s): s * e, e the next raw exponential draw. -/
def Rng.exponential (g : Rng) (s : ℝ) (p : Pos) : ℝ × Pos :=
  (s * g.ex p.2, (p.1, p.2 + 1))

/-- generator.py: `round(x, 2)` — round to 2 decimal places.  (Python uses
round-half-to-even on binary floats; any round-to-nearest agrees except on
exact ties, which none of the claims depend on.) -/
noncomputable def round2 (x : ℝ) : ℝ := (round (x * 100) : ℤ) / 100

/-- generator.py `get_min_crp`: `0.5 + np.random.exponential(0.5)`. -/
def get_min_crp (g : Rng) (p : Pos) : ℝ × Pos :=
  let ep := g.exponential 0.5 p
  (0.5 + ep.1, ep.2)

/-- generator.py `generate_patient_id`:
`int('64' + str(np.random.randint(0, 1000000)).zfill(6))`.
For a draw r in [0, 999999], zfill(6) pads to exactly six digits, so the
result is 64000000 + r.  The raw integer draw is `ints k`; `% 1000000`
models randint's range [0, 1000000). -/
def generate_patient_id (ints : ℕ → ℕ) (k : ℕ) : ℕ :=
  64000000 + ints k % 1000000

/-- One batch of `count` patient ids drawn starting at raw-draw position k:
`[generate_patient_id() for _ in range(2 * n_per_group)]`. -/
def drawBatch (ints : ℕ → ℕ) (k count : ℕ) : List ℕ :=
  (List.range count).map (fun t => generate_patient_id ints (k + t))

/-- generator.py lines 55-57: draw a batch of ids; `while len(set(ids)) <
len(ids)` redraw the whole batch.  `fuel` bounds the number of attempts (the
Python loop is unbounded); each failed attempt consumes `count` draws. -/
def allocateIds (ints : ℕ → ℕ) (count : ℕ) : ℕ → ℕ → Option (List ℕ)
  | _, 0 => none
  | k, fuel + 1 =>
    let ids := drawBatch ints k count
    if ids.Nodup then some ids else allocateIds ints count (k + count) fuel

/-- The configuration of generate_crp_data (its keyword arguments).
`day_effects` is the dict day -> effect size, as an association list. -/
structure GenConfig where
  n_per_group : ℕ
  baseline_mean : ℝ
  baseline_sd : ℝ
  peak_treated : ℝ
  peak_control : ℝ
  decay_treated : ℝ
  decay_control : ℝ
  day_effects : List (ℕ × ℝ)

/-- The pre-adjustment crp of one day (generator.py lines 82-97): day 0 is
`max(get_min_crp(), baseline + normal(0, 15))`; days 1-2 interpolate
baseline to peak with noise sigma = 0.3 * base and add individual_variation;
days 3-7 decay exponentially from peak with noise sigma = 0.35 * base and
add individual_variation. -/
noncomputable def dayCrp (g : Rng) (baseline indiv peak decay : ℝ) (day : ℕ)
    (p : Pos) : ℝ × Pos :=
  if day = 0 then
    let mp := get_min_crp g p
    let zp := g.normal 0 15 mp.2
    (max mp.1 (baseline + zp.1), zp.2)
  else if day ≤ 2 then
    let progress : ℝ := (day : ℝ) / 2
    let base := baseline + (peak - baseline) * progress
    let zp := g.normal 0 (base * 0.3) p
    (base + zp.1 + indiv, zp.2)
  else
    let base := peak * Real.exp (-decay * ((day : ℝ) - 2))
    let zp := g.normal 0 (base * 0.35) p
    (base + zp.1 + indiv, zp.2)

/-- generator.py lines 100-106: `if day in day_effects and day_effects[day]
> 0`: draw random_effect = normal(0, effect_size * 0.3); treated subtracts
effect_size + random_effect, control adds random_effect only.  Entries with
non-positive magnitude, and absent days, are skipped with no draw. -/
noncomputable def applyDayEffect (de : List (ℕ × ℝ)) (g : Rng) (isTreated : Bool)
    (day : ℕ) (crp : ℝ) (p : Pos) : ℝ × Pos :=
  match de.lookup day with
  | some e =>
    if 0 < e then
      let rp := g.normal 0 (e * 0.3) p
      (if isTreated then crp - (e + rp.1) else crp + rp.1, rp.2)
    else (crp, p)
  | none => (crp, p)

/-- One stored observation (generator.py lines 82-114): the day's crp, the
day-effect adjustment, and the final
`round(max(get_min_crp(), crp), 2)`. -/
noncomputable def simObs (cfg : GenConfig) (g : Rng) (isTreated : Bool)
    (pid : ℕ) (baseline indiv peak decay : ℝ) (day : ℕ) (p : Pos) : Obs × Pos :=
  let cp := dayCrp g baseline indiv peak decay day p
  let ap := applyDayEffect cfg.day_effects g isTreated day cp.1 cp.2
  let mp := get_min_crp g ap.2
  (⟨pid, if isTreated then StudyGroup.treated else StudyGroup.control, day,
    some (round2 (max mp.1 ap.1))⟩, mp.2)

/-- The inner `for day in days` loop, threading the draw position. -/
noncomputable def simDays (cfg : GenConfig) (g : Rng) (isTreated : Bool)
    (pid : ℕ) (baseline indiv peak decay : ℝ) :
    List ℕ → Pos → List Obs × Pos
  | [], p => ([], p)
  | d :: ds, p =>
    let op := simObs cfg g isTreated pid baseline indiv peak decay d p
    let rest := simDays cfg g isTreated pid baseline indiv peak decay ds op.2
    (op.1 :: rest.1, rest.2)

/-- One iteration of the patient loop (generator.py lines 70-81): group by
index (`is_treated = idx < n_per_group`), draw baseline and
individual_variation, pick peak/decay by group, then simulate days 0-7. -/
noncomputable def simPatient (cfg : GenConfig) (g : Rng) (idx pid : ℕ)
    (p : Pos) : List Obs × Pos :=
  let isTreated : Bool := decide (idx < cfg.n_per_group)
  let bp := g.normal cfg.baseline_mean cfg.baseline_sd p
  let vp := g.normal 0 35 bp.2
  let peak := if isTreated then cfg.peak_treated else cfg.peak_control
  let decay := if isTreated then cfg.decay_treated else cfg.decay_control
  simDays cfg g isTreated pid bp.1 vp.1 peak decay (List.range 8) vp.2

/-- The outer `for idx, patient in enumerate(patient_ids)` loop. -/
noncomputable def simPatients (cfg : GenConfig) (g : Rng) :
    List (ℕ × ℕ) → Pos → List Obs × Pos
  | [], p => ([], p)
  | ip :: rest, p =>
    let op := simPatient cfg g ip.1 ip.2 p
    let rp := simPatients cfg g rest op.2
    (op.1 ++ rp.1, rp.2)

/-- generator.py `generate_crp_data`: allocate 2 * n_per_group unique ids
(resampling whole batches on collision, bounded by `fuel`), then simulate
every patient over days 0-7 and append the rows patient-major. -/
noncomputable def generate_crp_data (cfg : GenConfig) (ints : ℕ → ℕ) (g : Rng)
    (fuel : ℕ) : Option (List Obs) :=
  match allocateIds ints (2 * cfg.n_per_group) 0 fuel with
  | none => none
  | some ids => some (simPatients cfg g ids.enum (0, 0)).1

/-- Sequence a list of optional values: `some` of the list of values when
all are present, `none` as soon as one is missing.  Models numpy/scipy NaN
propagation: any NaN input poisons the result. -/
def seqOpt {α : Type} : List (Option α) → Option (List α)
  | [] => some []
  | none :: _ => none
  | some a :: rest => (seqOpt rest).map (a :: ·)

/-- The (statistic, pvalue) pair scipy.stats.ttest_ind returns.  A NaN
component is `none`; the statistic is an extended real because a zero
pooled variance with distinct means yields t = ±infinity. -/
structure TtestResult where
  statistic : Option EReal
  pvalue : Option ℝ

/-- scipy.stats.ttest_ind with its defaults (equal_var=True,
nan_policy='propagate'), as called by the analysis code: the classic
pooled two-sample t statistic with sample (ddof=1) variances.  Its IEEE
outcomes, reproduced case by case:
  - an input NaN propagates: the result is (NaN, NaN);
  - a sample with fewer than 2 values: its ddof=1 variance is 0/0 = NaN
    (this covers the empty sample too, whose mean is already NaN), and
    0 * NaN = NaN poisons the pooled variance, so the result is
    (NaN, NaN);
  - both samples of size >= 2 and pooled variance sp2 = 0: the statistic
    is (ma - mb)/0, i.e. NaN when the means are equal — result
    (NaN, NaN) — and ±infinity when they differ, in which case the
    two-sided tail probability of ±infinity is 0, so the result is
    (±inf, 0);
  - otherwise the finite statistic t and the p-value.
`pv` abstracts the two-sided Student-t p-value function
(degrees of freedom, t) ↦ p of the finite case; no claim depends on its
values. -/
noncomputable def ttest_ind (pv : ℕ → ℝ → ℝ) (xs ys : List (Option ℝ)) :
    TtestResult :=
  match seqOpt xs, seqOpt ys with
  | some a, some b =>
    if a.length < 2 ∨ b.length < 2 then ⟨none, none⟩
    else
      let n : ℝ := a.length
      let m : ℝ := b.length
      let ma := a.sum / n
      let mb := b.sum / m
      let sp2 := ((a.map fun x => (x - ma) ^ 2).sum
        + (b.map fun y => (y - mb) ^ 2).sum) / (n + m - 2)
      if sp2 = 0 then
        if ma - mb = 0 then ⟨none, none⟩
        else ⟨some (if 0 < ma - mb then (⊤ : EReal) else ⊥), some 0⟩
      else
        let t := (ma - mb) / Real.sqrt (sp2 * (1 / n + 1 / m))
        ⟨some (t : EReal), some (pv (a.length + b.length - 2) t)⟩
  | _, _ => ⟨none, none⟩

/-- analyse.py `time_to_normalize` (= the intact stats.py lines 12-26):
`normalized = group[group['crp'] < 100]`, then `normalized['day'].min()` if
non-empty else NaN.  A missing crp compares as False (pandas: NaN < 100 is
False), so such rows are filtered out. -/
noncomputable def time_to_normalize (rows : List Obs) : Option ℕ :=
  ((rows.filter fun r =>
      match r.crp with
      | some c => decide (c < 100)
      | none => false).map Obs.day).min?

/-- `sorted(df['day'].unique())` (analyse.py line 172). -/
def daysOf (df : List Obs) : List ℕ :=
  ((df.map Obs.day).dedup).insertionSort (· ≤ ·)

/-- One record of the per-day t-test loop: the dict appended at
analyse.py lines 178-183. -/
structure DayTest where
  day : ℕ
  p_value : Option ℝ
  treated_mean : Option ℝ
  control_mean : Option ℝ

/-- pandas Series.mean (skipna=True): drop the missing values, `none` (NaN)
when nothing remains. -/
noncomputable def meanSkipNA (xs : List (Option ℝ)) : Option ℝ :=
  let v := xs.filterMap id
  if v.length = 0 then none else some (v.sum / v.length)

/-- The per-day t-test loop of `analyze_crp_data` (analyse.py lines
170-185): for each distinct day ascending, stratify the day's rows by
group, run stats.ttest_ind on the two crp samples and record
(day, p_value, treated_mean, control_mean).  The loop body raises nothing:
an empty group gives a NaN (none) test result, and the loop continues. -/
noncomputable def analyze_crp_data_ttests (pv : ℕ → ℝ → ℝ) (df : List Obs) :
    List DayTest :=
  (daysOf df).map fun day =>
    let day_data := df.filter fun r => decide (r.day = day)
    let treated := (day_data.filter fun r =>
      decide (r.group = StudyGroup.treated)).map Obs.crp
    let control := (day_data.filter fun r =>
      decide (r.group = StudyGroup.control)).map Obs.crp
    ⟨day, (ttest_ind pv treated control).pvalue,
      meanSkipNA treated, meanSkipNA control⟩

/-- The distinct patient ids of one group, ascending — the keys of
`df.groupby(['group', 'patient_id'])` restricted to one group (pandas
sorts group keys). -/
def patientsSorted (df : List Obs) (grp : StudyGroup) : List ℕ :=
  (((df.filter fun r => decide (r.group = grp)).map
    Obs.patient_id).dedup).insertionSort (· ≤ ·)

/-- analyse.py lines 110-114: per (group, patient) apply time_to_normalize,
then `.dropna()` (modelled by filterMap): the non-null
days_to_normalize values of one group. -/
noncomputable def days_to_normalize (df : List Obs) (grp : StudyGroup) : List ℕ :=
  (patientsSorted df grp).filterMap fun pid =>
    time_to_normalize (df.filter fun r =>
      decide (r.group = grp) && decide (r.patient_id = pid))

/-- The time-to-normalization comparison of `analyze_data` (analyse.py
lines 113-119): if both groups keep more than 1 non-null value, run
stats.ttest_ind on them; otherwise report (NaN, NaN), modelled as the
⟨none, none⟩ result pair. -/
noncomputable def analyze_data_ttn (pv : ℕ → ℝ → ℝ) (df : List Obs) :
    TtestResult :=
  let treated_times := days_to_normalize df StudyGroup.treated
  let control_times := days_to_normalize df StudyGroup.control
  if 1 < treated_times.length ∧ 1 < control_times.length then
    ttest_ind pv (treated_times.map fun d : ℕ => some (d : ℝ))
      (control_times.map fun d : ℕ => some (d : ℝ))
  else ⟨none, none⟩

/-- pandas mean of a float column (NaN when empty). -/
noncomputable def sampleMean (xs : List ℝ) : Option ℝ :=
  if xs.length = 0 then none else some (xs.sum / xs.length)

/-- pandas median: middle element of the sorted values, or the average of
the two middle elements for even length; NaN when empty. -/
noncomputable def sampleMedian (xs : List ℝ) : Option ℝ :=
  let s := xs.insertionSort (· ≤ ·)
  if xs.length % 2 = 1 then s[xs.length / 2]?
  else
    match s[xs.length / 2 - 1]?, s[xs.length / 2]? with
    | some a, some b => some ((a + b) / 2)
    | _, _ => none

/-- pandas sample standard deviation (ddof=1): NaN for fewer than 2
values. -/
noncomputable def sampleStd (xs : List ℝ) : Option ℝ :=
  if xs.length < 2 then none
  else some (Real.sqrt (((xs.map fun x =>
    (x - xs.sum / xs.length) ^ 2).sum) / ((xs.length : ℝ) - 1)))

/-- Sort order of the groupby keys: the group column holds the strings
'control' < 'treated', so control sorts first. -/
def groupKeyIdx : StudyGroup → ℕ
  | StudyGroup.control => 0
  | StudyGroup.treated => 1

/-- Lexicographic order on (group, day) keys, group as string order. -/
def keyLE (a b : StudyGroup × ℕ) : Prop :=
  groupKeyIdx a.1 < groupKeyIdx b.1 ∨ (a.1 = b.1 ∧ a.2 ≤ b.2)

instance : DecidableRel keyLE := fun a b => by
  unfold keyLE; exact inferInstance

/-- The (group, day) keys present in the dataset, in groupby's sorted
order. -/
def descKeys (df : List Obs) : List (StudyGroup × ℕ) :=
  ((df.map fun r => (r.group, r.day)).dedup).insertionSort keyLE

/-- One row of the descriptive table:
`.agg(['mean', 'median', 'std', 'count'])`. -/
structure SummaryRow where
  mean : Option ℝ
  median : Option ℝ
  std : Option ℝ
  count : ℕ

/-- analyse.py line 91: `df.groupby(['group', 'day'],
observed=True)['crp'].agg(['mean', 'median', 'std', 'count'])`.  The
aggregations skip missing values (pandas skipna; count counts non-null). -/
noncomputable def desc_stats (df : List Obs) :
    List ((StudyGroup × ℕ) × SummaryRow) :=
  (descKeys df).map fun k =>
    let vals := (df.filter fun r =>
      decide (r.group = k.1) && decide (r.day = k.2)).filterMap Obs.crp
    (k, ⟨sampleMean vals, sampleMedian vals, sampleStd vals, vals.length⟩)

/-- analyse.py line 92: `df.isnull().sum()` — missing entries per column.
patient_id, group and day are non-nullable in this model (ints and
strings), crp is the float column that can be NaN. -/
structure MissingCounts where
  patient_id : ℕ
  group : ℕ
  day : ℕ
  crp : ℕ
deriving DecidableEq, Repr

def missing_values (df : List Obs) : MissingCounts :=
  ⟨0, 0, 0, (df.filter fun r => r.crp.isNone).length⟩

/-- The Descriptive Engine (analyse.py lines 91-92): the summary table and
the missing-value counts, with the dataframe it leaves behind.  groupby,
agg and isnull().sum() build new objects and do not modify df, so the
engine hands the dataset back unchanged. -/
noncomputable def descriptiveEngine (df : List Obs) :
    (List ((StudyGroup × ℕ) × SummaryRow) × MissingCounts) × List Obs :=
  ((desc_stats df, missing_values df), df)

/-- A statsmodels optimizer invocation: the `method` string and the
`maxiter` bound passed to MixedLM.fit (none = no bound passed). -/
structure OptimizerCall where
  method : String
  maxiter : Option ℕ
deriving DecidableEq, Repr

/-- The optimizer dispatch of `analyze_data` (src/src/analyse.py line 99):
exactly one call, `results = model.fit(method='nm')` — Nelder-Mead, no
iteration bound, no retry.  `fit` abstracts statsmodels MixedLM.fit (some
result on success, none on failure).  Returns the fit outcome together
with the list of optimizer calls attempted.  (The other copy of
analyze_data, crptrial/analysis/stats.py lines 55-65, is syntactically
invalid Python — an orphaned `except` block — and cannot run at all.) -/
def analyze_data_fit {α : Type} (fit : OptimizerCall → Option α) :
    Option α × List OptimizerCall :=
  (fit ⟨"nm", none⟩, [⟨"nm", none⟩])

/-- Modelled from the spec: the fallback chain the claim describes for the
Mixed-Effects Fitter — first a quasi-Newton optimizer (lbfgs) with a
bounded iteration count, on failure the Nelder-Mead fallback, and a
failure of the whole step (ModelFitError) only when both fail.  Written
from the spec's words for comparison with `analyze_data_fit`, which is
what the code does. -/
def specFitChain {α : Type} (fit : OptimizerCall → Option α) : Option α :=
  match fit ⟨"lbfgs", some 100⟩ with
  | some r => some r
  | none => fit ⟨"nm", none⟩

/-! ### Draw bookkeeping for the generator

Each observation consumes a fixed number of draws from each stream,
depending only on the day and the day_effects configuration; the lemmas
below locate every stored value's draws in the streams. -/

/-- Normal draws consumed by the day-effect adjustment of one day:
1 when the day has a positive entry, otherwise 0. -/
noncomputable def effCount (de : List (ℕ × ℝ)) (d : ℕ) : ℕ :=
  match de.lookup d with
  | some e => if 0 < e then 1 else 0
  | none => 0

/-- Normal draws consumed by one observation: the phase noise plus the
day-effect draw when present. -/
noncomputable def nrmPerDay (de : List (ℕ × ℝ)) (d : ℕ) : ℕ := 1 + effCount de d

/-- Exponential draws consumed by one observation: day 0 draws a min_crp
inside `max` and another for the final floor; later days only the floor. -/
def exPerDay (d : ℕ) : ℕ := if d = 0 then 2 else 1

/-- Normal draws consumed by a whole patient: baseline,
individual_variation, and the eight days. -/
noncomputable def patNrm (de : List (ℕ × ℝ)) : ℕ :=
  2 + ((List.range 8).map (nrmPerDay de)).sum

/-- Within-patient normal draws consumed before day d. -/
noncomputable def nrmBeforeDay (de : List (ℕ × ℝ)) (d : ℕ) : ℕ :=
  ((List.range d).map (nrmPerDay de)).sum

/-- Within-patient exponential draws consumed before day d. -/
def exBeforeDay (d : ℕ) : ℕ := ((List.range d).map exPerDay).sum

/-- Stream index of the phase-noise normal draw of patient idx, day d. -/
noncomputable def phaseNoiseIdx (de : List (ℕ × ℝ)) (idx d : ℕ) : ℕ :=
  idx * patNrm de + 2 + nrmBeforeDay de d

/-- Stream index of the final-floor min_crp exponential draw of patient
idx, day d. -/
def floorExIdx (idx d : ℕ) : ℕ :=
  idx * 9 + exBeforeDay d + (if d = 0 then 1 else 0)

/-- The day-effect adjustment as a value-level function of the current crp
and the raw draw z it consumes (when it consumes one). -/
noncomputable def dayEffectValue (de : List (ℕ × ℝ)) (isTreated : Bool)
    (d : ℕ) (crp z : ℝ) : ℝ :=
  match de.lookup d with
  | some e =>
    if 0 < e then
      (if isTreated then crp - (e + (0 + e * 0.3 * z)) else crp + (0 + e * 0.3 * z))
    else crp
  | none => crp

theorem applyDayEffect_fst (de : List (ℕ × ℝ)) (g : Rng) (t : Bool) (d : ℕ)
    (c : ℝ) (p : Pos) :
    (applyDayEffect de g t d c p).1 = dayEffectValue de t d c (g.nrm p.1) := by
  unfold applyDayEffect dayEffectValue Rng.normal
  cases de.lookup d with
  | none => rfl
  | some e => by_cases he : 0 < e <;> simp [he]

theorem applyDayEffect_snd (de : List (ℕ × ℝ)) (g : Rng) (t : Bool) (d : ℕ)
    (c : ℝ) (p : Pos) :
    (applyDayEffect de g t d c p).2 = (p.1 + effCount de d, p.2) := by
  unfold applyDayEffect effCount Rng.normal
  cases de.lookup d with
  | none => rfl
  | some e => by_cases he : 0 < e <;> simp [he]

theorem dayCrp_snd (g : Rng) (b iv pk dc : ℝ) (d : ℕ) (p : Pos) :
    (dayCrp g b iv pk dc d p).2 = (p.1 + 1, p.2 + (if d = 0 then 1 else 0)) := by
  unfold dayCrp get_min_crp Rng.normal Rng.exponential
  by_cases h0 : d = 0
  · simp [h0]
  · by_cases h2 : d ≤ 2 <;> simp [h0, h2]

theorem simObs_snd (cfg : GenConfig) (g : Rng) (t : Bool) (pid : ℕ)
    (b iv pk dc : ℝ) (d : ℕ) (p : Pos) :
    (simObs cfg g t pid b iv pk dc d p).2 =
      (p.1 + nrmPerDay cfg.day_effects d, p.2 + exPerDay d) := by
  unfold simObs get_min_crp Rng.exponential
  simp only [applyDayEffect_snd, dayCrp_snd, nrmPerDay, exPerDay]
  by_cases h0 : d = 0 <;> simp [h0] <;> ring

theorem simDays_length (cfg : GenConfig) (g : Rng) (t : Bool) (pid : ℕ)
    (b iv pk dc : ℝ) (ds : List ℕ) (p : Pos) :
    (simDays cfg g t pid b iv pk dc ds p).1.length = ds.length := by
  induction ds generalizing p with
  | nil => rfl
  | cons d ds ih => simp [simDays, ih]

theorem simDays_snd (cfg : GenConfig) (g : Rng) (t : Bool) (pid : ℕ)
    (b iv pk dc : ℝ) (ds : List ℕ) (p : Pos) :
    (simDays cfg g t pid b iv pk dc ds p).2 =
      (p.1 + (ds.map (nrmPerDay cfg.day_effects)).sum,
       p.2 + (ds.map exPerDay).sum) := by
  induction ds generalizing p with
  | nil => simp [simDays]
  | cons d ds ih => simp [simDays, ih, simObs_snd]; constructor <;> ring

theorem simDays_getElem (cfg : GenConfig) (g : Rng) (t : Bool) (pid : ℕ)
    (b iv pk dc : ℝ) (ds : List ℕ) (p : Pos) (k : ℕ) (hk : k < ds.length) :
    (simDays cfg g t pid b iv pk dc ds p).1[k]? =
      some (simObs cfg g t pid b iv pk dc (ds[k])
        (p.1 + ((ds.take k).map (nrmPerDay cfg.day_effects)).sum,
         p.2 + ((ds.take k).map exPerDay).sum)).1 := by
  induction ds generalizing p k with
  | nil => simp at hk
  | cons d ds ih =>
    cases k with
    | zero => simp [simDays]
    | succ k =>
      have hk' : k < ds.length := by simpa using hk
      simp only [simDays, List.getElem?_cons_succ, ih _ _ hk', simObs_snd,
        List.take_succ_cons, List.map_cons, List.sum_cons, List.getElem_cons_succ]
      congr 2
      ring_nf

theorem exPerDay_range_sum : ((List.range 8).map exPerDay).sum = 9 := by decide

theorem simPatient_length (cfg : GenConfig) (g : Rng) (idx pid : ℕ) (p : Pos) :
    (simPatient cfg g idx pid p).1.length = 8 := by
  unfold simPatient
  simp [simDays_length]

theorem simPatient_snd (cfg : GenConfig) (g : Rng) (idx pid : ℕ) (p : Pos) :
    (simPatient cfg g idx pid p).2 =
      (p.1 + patNrm cfg.day_effects, p.2 + 9) := by
  unfold simPatient Rng.normal
  simp [simDays_snd, exPerDay_range_sum, patNrm]
  ring

theorem simPatient_getElem (cfg : GenConfig) (g : Rng) (idx pid : ℕ) (p : Pos)
    (d : ℕ) (hd : d < 8) :
    (simPatient cfg g idx pid p).1[d]? =
      some (simObs cfg g (decide (idx < cfg.n_per_group)) pid
        (cfg.baseline_mean + cfg.baseline_sd * g.nrm p.1)
        (0 + 35 * g.nrm (p.1 + 1))
        (if idx < cfg.n_per_group then cfg.peak_treated else cfg.peak_control)
        (if idx < cfg.n_per_group then cfg.decay_treated else cfg.decay_control)
        d (p.1 + 2 + nrmBeforeDay cfg.day_effects d, p.2 + exBeforeDay d)).1 := by
  unfold simPatient Rng.normal
  have hlen : d < (List.range 8).length := by simpa using hd
  rw [simDays_getElem cfg g _ pid _ _ _ _ (List.range 8) _ d hlen]
  have hmin : min d 8 = d := by omega
  have h2 : p.1 + 1 + 1 = p.1 + 2 := by ring
  simp only [List.getElem_range, List.take_range, hmin, nrmBeforeDay, exBeforeDay, h2]
  by_cases h : idx < cfg.n_per_group <;> simp [h]

theorem simPatients_length (cfg : GenConfig) (g : Rng) (l : List (ℕ × ℕ))
    (p : Pos) : (simPatients cfg g l p).1.length = 8 * l.length := by
  induction l generalizing p with
  | nil => rfl
  | cons ip rest ih =>
    simp [simPatients, simPatient_length, ih]
    ring

theorem simPatients_getElem (cfg : GenConfig) (g : Rng) (l : List (ℕ × ℕ))
    (p : Pos) (idx d : ℕ) (hidx : idx < l.length) (hd : d < 8) :
    (simPatients cfg g l p).1[8 * idx + d]? =
      (simPatient cfg g (l[idx]).1 (l[idx]).2
        (p.1 + idx * patNrm cfg.day_effects, p.2 + idx * 9)).1[d]? := by
  induction l generalizing p idx with
  | nil => simp at hidx
  | cons ip rest ih =>
    cases idx with
    | zero =>
      simp only [simPatients, List.getElem?_append, Nat.mul_zero, Nat.zero_add,
        simPatient_length, List.getElem_cons_zero]
      rw [if_pos hd]
      simp
    | succ idx =>
      have hidx' : idx < rest.length := by simpa using hidx
      have harith : 8 * (idx + 1) + d = 8 + (8 * idx + d) := by ring
      simp only [simPatients, List.getElem?_append, harith, simPatient_length]
      rw [if_neg (by omega)]
      have hsub : 8 + (8 * idx + d) - 8 = 8 * idx + d := by omega
      rw [hsub, ih _ _ hidx', simPatient_snd]
      have e1 : p.1 + patNrm cfg.day_effects + idx * patNrm cfg.day_effects
          = p.1 + (idx + 1) * patNrm cfg.day_effects := by ring
      have e2 : p.2 + 9 + idx * 9 = p.2 + (idx + 1) * 9 := by ring
      simp only [List.getElem_cons_succ, e1, e2]

theorem allocateIds_length_nodup (ints : ℕ → ℕ) (count : ℕ) :
    ∀ (fuel k : ℕ) (ids : List ℕ),
      allocateIds ints count k fuel = some ids →
      ids.length = count ∧ ids.Nodup := by
  intro fuel
  induction fuel with
  | zero => intro k ids h; simp [allocateIds] at h
  | succ fuel ih =>
    intro k ids h
    unfold allocateIds at h
    by_cases hnd : (drawBatch ints k count).Nodup
    · rw [if_pos hnd] at h
      cases h
      exact ⟨by simp [drawBatch], hnd⟩
    · rw [if_neg hnd] at h
      exact ih _ _ h

theorem generate_crp_data_eq (cfg : GenConfig) (ints : ℕ → ℕ) (g : Rng)
    (fuel : ℕ) (df : List Obs)
    (h : generate_crp_data cfg ints g fuel = some df) :
    ∃ ids, allocateIds ints (2 * cfg.n_per_group) 0 fuel = some ids ∧
      ids.length = 2 * cfg.n_per_group ∧ ids.Nodup ∧
      df = (simPatients cfg g ids.enum (0, 0)).1 := by
  unfold generate_crp_data at h
  cases halloc : allocateIds ints (2 * cfg.n_per_group) 0 fuel with
  | none => rw [halloc] at h; cases h
  | some ids =>
    rw [halloc] at h
    obtain ⟨hlen, hnd⟩ := allocateIds_length_nodup ints _ fuel 0 ids halloc
    exact ⟨ids, rfl, hlen, hnd, (Option.some_injective _ h).symm⟩

/-- The backbone: every generated dataset row located and written as the
corresponding `simObs` value on explicit stream positions. -/
theorem generate_row (cfg : GenConfig) (ints : ℕ → ℕ) (g : Rng) (fuel : ℕ)
    (df : List Obs) (h : generate_crp_data cfg ints g fuel = some df) :
    ∃ ids, allocateIds ints (2 * cfg.n_per_group) 0 fuel = some ids ∧
      ids.length = 2 * cfg.n_per_group ∧ ids.Nodup ∧
      df.length = 2 * cfg.n_per_group * 8 ∧
      ∀ idx d (hidx : idx < ids.length), d < 8 →
        df[8 * idx + d]? =
          some (simObs cfg g (decide (idx < cfg.n_per_group)) (ids.get ⟨idx, hidx⟩)
            (cfg.baseline_mean + cfg.baseline_sd * g.nrm (idx * patNrm cfg.day_effects))
            (0 + 35 * g.nrm (idx * patNrm cfg.day_effects + 1))
            (if idx < cfg.n_per_group then cfg.peak_treated else cfg.peak_control)
            (if idx < cfg.n_per_group then cfg.decay_treated else cfg.decay_control)
            d
            (idx * patNrm cfg.day_effects + 2 + nrmBeforeDay cfg.day_effects d,
             idx * 9 + exBeforeDay d)).1 := by
  obtain ⟨ids, halloc, hlen, hnd, hdf⟩ := generate_crp_data_eq cfg ints g fuel df h
  refine ⟨ids, halloc, hlen, hnd, ?_, ?_⟩
  · rw [hdf, simPatients_length, List.enum_length, hlen]
    ring
  · intro idx d hidx hd
    have hidx' : idx < ids.enum.length := by simpa [List.enum_length] using hidx
    rw [hdf, simPatients_getElem cfg g _ _ idx d hidx' hd,
      simPatient_getElem cfg g _ _ _ d hd]
    simp [List.getElem_enum]

theorem dayCrp_fst (g : Rng) (b iv pk dc : ℝ) (d : ℕ) (p : Pos) :
    (dayCrp g b iv pk dc d p).1 =
      if d = 0 then max (0.5 + 0.5 * g.ex p.2) (b + (0 + 15 * g.nrm p.1))
      else if d ≤ 2 then
        (b + (pk - b) * ((d : ℝ) / 2))
          + (0 + (b + (pk - b) * ((d : ℝ) / 2)) * 0.3 * g.nrm p.1) + iv
      else
        pk * Real.exp (-dc * ((d : ℝ) - 2))
          + (0 + pk * Real.exp (-dc * ((d : ℝ) - 2)) * 0.35 * g.nrm p.1) + iv := by
  unfold dayCrp get_min_crp Rng.normal Rng.exponential
  by_cases h0 : d = 0
  · simp [h0]
  · by_cases h2 : d ≤ 2 <;> simp [h0, h2]

theorem simObs_fst (cfg : GenConfig) (g : Rng) (t : Bool) (pid : ℕ)
    (b iv pk dc : ℝ) (d : ℕ) (p : Pos) :
    (simObs cfg g t pid b iv pk dc d p).1 =
      ⟨pid, if t then StudyGroup.treated else StudyGroup.control, d,
        some (round2 (max
          (0.5 + 0.5 * g.ex (p.2 + (if d = 0 then 1 else 0)))
          (dayEffectValue cfg.day_effects t d (dayCrp g b iv pk dc d p).1
            (g.nrm (p.1 + 1)))))⟩ := by
  unfold simObs get_min_crp Rng.exponential
  simp only [applyDayEffect_fst, applyDayEffect_snd, dayCrp_snd]

/-! ### Concrete fixtures used by the witness theorems -/

def ints0 : ℕ → ℕ := fun k => k

def g0 : Rng := ⟨fun _ => 0, fun _ => 0⟩

def cfg0 : GenConfig := ⟨1, 5, 2, 150, 180, 1, 1, []⟩

theorem alloc0 : allocateIds ints0 2 0 1 = some [64000000, 64000001] := by
  decide

noncomputable def df0 : List Obs :=
  (simPatients cfg0 g0 ([64000000, 64000001].enum) (0, 0)).1

theorem h0 : generate_crp_data cfg0 ints0 g0 1 = some df0 := by
  unfold generate_crp_data df0
  have h2 : 2 * cfg0.n_per_group = 2 := rfl
  rw [h2, alloc0]

theorem exBeforeDay_succ (d : ℕ) :
    exBeforeDay (d + 1) = exBeforeDay d + exPerDay d := by
  unfold exBeforeDay
  rw [List.range_succ]
  simp

theorem exBeforeDay_eq (d : ℕ) :
    exBeforeDay d = if d = 0 then 0 else d + 1 := by
  induction d with
  | zero => rfl
  | succ d ih =>
    rw [exBeforeDay_succ, ih]
    unfold exPerDay
    by_cases h : d = 0 <;> simp [h]

theorem floorExIdx_eq (idx d : ℕ) :
    floorExIdx idx d = idx * 9 + (if d = 0 then 1 else d + 1) := by
  unfold floorExIdx
  rw [exBeforeDay_eq]
  by_cases h : d = 0 <;> simp [h]

/-- The final-floor min_crp draws are fresh per observation: distinct
(patient, day) pairs read distinct exponential-stream positions, and none
of them is a day-0 inner min_crp position (which sit at multiples of 9). -/
theorem floorExIdx_fresh :
    (∀ i₁ d₁ i₂ d₂, d₁ < 8 → d₂ < 8 →
      floorExIdx i₁ d₁ = floorExIdx i₂ d₂ → i₁ = i₂ ∧ d₁ = d₂) ∧
    (∀ i₁ d₁ i₂, d₁ < 8 → floorExIdx i₁ d₁ ≠ i₂ * 9) := by
  constructor
  · intro i₁ d₁ i₂ d₂ h₁ h₂ heq
    rw [floorExIdx_eq, floorExIdx_eq] at heq
    by_cases e₁ : d₁ = 0 <;> by_cases e₂ : d₂ = 0 <;>
      simp [e₁, e₂] at heq <;> omega
  · intro i₁ d₁ i₂ h₁
    rw [floorExIdx_eq]
    by_cases e₁ : d₁ = 0 <;> simp [e₁] <;> omega

/-- C2: for every generated dataset, every patient index and every day d in
0..7, the pre-floor CRP follows the claimed phase formulas — day 0:
baseline plus Normal(0, 15) noise floored at a fresh min_crp draw; days
1-2: base = baseline + (peak - baseline) * (d / 2) plus Normal(0, 0.3 *
base) noise plus individual_variation; days 3-7: base = peak * exp(-decay *
(d - 2)) plus Normal(0, 0.35 * base) noise plus individual_variation — and
the stored value is that quantity (after the day-effect adjustment) floored
at an independently drawn min_crp = 0.5 + Exponential(0.5), fresh per
observation, and rounded to 2 decimal places. -/
theorem c2_trajectory_formula (cfg : GenConfig) (ints : ℕ → ℕ) (g : Rng)
    (fuel : ℕ) (df : List Obs)
    (h : generate_crp_data cfg ints g fuel = some df)
    (idx d : ℕ) (hidx : idx < 2 * cfg.n_per_group) (hd : d < 8) :
    (let de := cfg.day_effects
     let baseline := cfg.baseline_mean + cfg.baseline_sd * g.nrm (idx * patNrm de)
     let indiv := 35 * g.nrm (idx * patNrm de + 1)
     let peak := if idx < cfg.n_per_group then cfg.peak_treated else cfg.peak_control
     let decay := if idx < cfg.n_per_group then cfg.decay_treated else cfg.decay_control
     let z := g.nrm (phaseNoiseIdx de idx d)
     let base_rise := baseline + (peak - baseline) * ((d : ℝ) / 2)
     let base_decay := peak * Real.exp (-decay * ((d : ℝ) - 2))
     let preFloor :=
       if d = 0 then max (0.5 + 0.5 * g.ex (idx * 9)) (baseline + 15 * z)
       else if d ≤ 2 then base_rise + base_rise * 0.3 * z + indiv
       else base_decay + base_decay * 0.35 * z + indiv
     let min_crp := 0.5 + 0.5 * g.ex (floorExIdx idx d)
     ∃ row, df[8 * idx + d]? = some row ∧
       row.crp = some (round2 (max min_crp
         (dayEffectValue de (decide (idx < cfg.n_per_group)) d preFloor
           (g.nrm (phaseNoiseIdx de idx d + 1)))))) ∧
    (∀ i₁ d₁ i₂ d₂, d₁ < 8 → d₂ < 8 →
      floorExIdx i₁ d₁ = floorExIdx i₂ d₂ → i₁ = i₂ ∧ d₁ = d₂) := by
  refine ⟨?_, floorExIdx_fresh.1⟩
  obtain ⟨ids, halloc, hlen, hnd, hdflen, hrow⟩ :=
    generate_row cfg ints g fuel df h
  have hidx' : idx < ids.length := by omega
  have hr := hrow idx d hidx' hd
  rw [simObs_fst] at hr
  refine ⟨_, hr, ?_⟩
  simp only [floorExIdx, phaseNoiseIdx]
  congr 2
  congr 1
  rw [dayCrp_fst]
  by_cases h0 : d = 0
  · simp only [h0, if_true]
    have he0 : exBeforeDay 0 = 0 := rfl
    rw [he0]
    congr 1
    ring_nf
  · by_cases h2 : d ≤ 2 <;> simp only [h0, h2, if_false, if_true] <;> ring_nf

theorem round2_pos (y : ℝ) (hy : 1 / 2 ≤ y) : 0 < round2 y := by
  unfold round2
  have h50 : (50 : ℤ) ≤ round (y * 100) := by
    rw [round_eq, Int.le_floor]
    push_cast
    nlinarith
  have hc : (50 : ℝ) ≤ (round (y * 100) : ℤ) := by exact_mod_cast h50
  positivity

/-- C7: every generated dataset has exactly 2 * n_per_group * 8 rows, every
day lies in [0, 7], every crp value is present and strictly positive, and
no two rows share a (patient_id, day) pair — one observation per patient
per day.  The crp positivity rests only on the exponential draws being
nonnegative, which holds for the real exponential distribution. -/
theorem c7_schema_invariants (cfg : GenConfig) (ints : ℕ → ℕ) (g : Rng)
    (fuel : ℕ) (df : List Obs)
    (h : generate_crp_data cfg ints g fuel = some df)
    (_hn : 1 ≤ cfg.n_per_group) (hex : ∀ m, 0 ≤ g.ex m) :
    df.length = 2 * cfg.n_per_group * 8 ∧
    (∀ r ∈ df, r.day ≤ 7 ∧ ∃ c, r.crp = some c ∧ 0 < c) ∧
    (df.map fun r => (r.patient_id, r.day)).Nodup := by
  obtain ⟨ids, halloc, hlen, hnd, hdflen, hrow⟩ :=
    generate_row cfg ints g fuel df h
  have hchar : ∀ k (hk : k < df.length),
      df[k] = (simObs cfg g (decide (k / 8 < cfg.n_per_group))
        (ids.get ⟨k / 8, by omega⟩)
        (cfg.baseline_mean + cfg.baseline_sd * g.nrm (k / 8 * patNrm cfg.day_effects))
        (0 + 35 * g.nrm (k / 8 * patNrm cfg.day_effects + 1))
        (if k / 8 < cfg.n_per_group then cfg.peak_treated else cfg.peak_control)
        (if k / 8 < cfg.n_per_group then cfg.decay_treated else cfg.decay_control)
        (k % 8)
        (k / 8 * patNrm cfg.day_effects + 2 + nrmBeforeDay cfg.day_effects (k % 8),
         k / 8 * 9 + exBeforeDay (k % 8))).1 := by
    intro k hk
    have hidx : k / 8 < ids.length := by omega
    have hd : k % 8 < 8 := Nat.mod_lt _ (by omega)
    have hsplit : 8 * (k / 8) + k % 8 = k := Nat.div_add_mod k 8
    have := hrow (k / 8) (k % 8) hidx hd
    rw [hsplit] at this
    rw [List.getElem?_eq_getElem hk] at this
    exact Option.some_injective _ this
  refine ⟨hdflen, ?_, ?_⟩
  · intro r hr
    obtain ⟨k, hk, hkr⟩ := List.mem_iff_getElem.mp hr
    have := hchar k hk
    rw [hkr] at this
    rw [this, simObs_fst]
    refine ⟨?_, _, rfl, ?_⟩
    · show k % 8 ≤ 7
      omega
    apply round2_pos
    have he : 0 ≤ 0.5 * g.ex (k / 8 * 9 + exBeforeDay (k % 8) +
        if k % 8 = 0 then 1 else 0) := by
      have := hex (k / 8 * 9 + exBeforeDay (k % 8) + if k % 8 = 0 then 1 else 0)
      linarith
    calc (1 / 2 : ℝ) ≤ 0.5 + 0.5 * g.ex (k / 8 * 9 + exBeforeDay (k % 8) +
          if k % 8 = 0 then 1 else 0) := by linarith
      _ ≤ _ := le_max_left _ _
  · rw [List.nodup_iff_injective_get]
    intro i j hij
    have hi : (i : ℕ) < df.length := by
      have := i.isLt
      simpa using this
    have hj : (j : ℕ) < df.length := by
      have := j.isLt
      simpa using this
    have hgi : (df.map fun r => (r.patient_id, r.day)).get i
        = ((df[(i : ℕ)]).patient_id, (df[(i : ℕ)]).day) := by
      simp [List.get_eq_getElem]
    have hgj : (df.map fun r => (r.patient_id, r.day)).get j
        = ((df[(j : ℕ)]).patient_id, (df[(j : ℕ)]).day) := by
      simp [List.get_eq_getElem]
    rw [hgi, hgj] at hij
    have hci := hchar (i : ℕ) hi
    have hcj := hchar (j : ℕ) hj
    rw [hci, hcj, simObs_fst, simObs_fst] at hij
    simp only [Prod.mk.injEq] at hij
    obtain ⟨hpid, hday⟩ := hij
    have hdiv : (i : ℕ) / 8 = (j : ℕ) / 8 := by
      have hinj := List.nodup_iff_injective_get.mp hnd
      have := @hinj ⟨(i : ℕ) / 8, by omega⟩ ⟨(j : ℕ) / 8, by omega⟩
        (by simpa using hpid)
      simpa using this
    have : (i : ℕ) = (j : ℕ) := by omega
    exact Fin.ext (by simpa using this)

/-- C10: rows are emitted patient-major in identifier-allocation order with
days 0..7 ascending inside each patient block; the first n_per_group
patients are treated and the rest control, so all treated rows precede all
control rows. -/
theorem c10_group_assignment_order (cfg : GenConfig) (ints : ℕ → ℕ) (g : Rng)
    (fuel : ℕ) (df : List Obs)
    (h : generate_crp_data cfg ints g fuel = some df) :
    ∃ ids, allocateIds ints (2 * cfg.n_per_group) 0 fuel = some ids ∧
      ids.length = 2 * cfg.n_per_group ∧
      df.length = 2 * cfg.n_per_group * 8 ∧
      (∀ k, k < df.length →
        ∃ row, df[k]? = some row ∧
          row.patient_id = ids.getD (k / 8) 0 ∧
          row.day = k % 8 ∧
          row.group = (if k / 8 < cfg.n_per_group then StudyGroup.treated
            else StudyGroup.control)) ∧
      (∀ (k₁ k₂ : ℕ) (r₁ r₂ : Obs), df[k₁]? = some r₁ → df[k₂]? = some r₂ →
        r₁.group = StudyGroup.treated → r₂.group = StudyGroup.control →
        k₁ < k₂) := by
  obtain ⟨ids, halloc, hlen, hnd, hdflen, hrow⟩ :=
    generate_row cfg ints g fuel df h
  have hchar : ∀ k, k < df.length →
      ∃ row, df[k]? = some row ∧
        row.patient_id = ids.getD (k / 8) 0 ∧
        row.day = k % 8 ∧
        row.group = (if k / 8 < cfg.n_per_group then StudyGroup.treated
          else StudyGroup.control) := by
    intro k hk
    have hidx : k / 8 < ids.length := by omega
    have hd : k % 8 < 8 := Nat.mod_lt _ (by omega)
    have hsplit : 8 * (k / 8) + k % 8 = k := Nat.div_add_mod k 8
    have hr := hrow (k / 8) (k % 8) hidx hd
    rw [hsplit, simObs_fst] at hr
    refine ⟨_, hr, ?_, rfl, ?_⟩
    · show ids.get ⟨k / 8, hidx⟩ = ids.getD (k / 8) 0
      rw [List.getD_eq_getElem?_getD, List.getElem?_eq_getElem hidx]
      rfl
    · show (if decide (k / 8 < cfg.n_per_group) = true then StudyGroup.treated
          else StudyGroup.control) = _
      by_cases hc : k / 8 < cfg.n_per_group <;> simp [hc]
  refine ⟨ids, halloc, hlen, hdflen, hchar, ?_⟩
  intro k₁ k₂ r₁ r₂ h₁ h₂ hg₁ hg₂
  have hk₁ : k₁ < df.length := by
    by_contra hcon
    rw [List.getElem?_eq_none (by omega)] at h₁
    cases h₁
  have hk₂ : k₂ < df.length := by
    by_contra hcon
    rw [List.getElem?_eq_none (by omega)] at h₂
    cases h₂
  obtain ⟨row₁, hrow₁, _, _, hgrp₁⟩ := hchar k₁ hk₁
  obtain ⟨row₂, hrow₂, _, _, hgrp₂⟩ := hchar k₂ hk₂
  rw [h₁] at hrow₁
  rw [h₂] at hrow₂
  cases Option.some_injective _ hrow₁
  cases Option.some_injective _ hrow₂
  have ht₁ : k₁ / 8 < cfg.n_per_group := by
    by_contra hcon
    rw [hg₁, if_neg hcon] at hgrp₁
    cases hgrp₁
  have ht₂ : ¬ k₂ / 8 < cfg.n_per_group := by
    intro hcon
    rw [hg₂, if_pos hcon] at hgrp₂
    cases hgrp₂
  omega

/-- C6: for every generated observation whose day has a day_effects entry
with magnitude e > 0, the simulator draws random_effect = Normal(0, 0.3 e)
(one extra normal draw, effCount = 1) and subtracts e + random_effect for a
treated patient while adding only random_effect for a control patient; an
absent or non-positive entry is silently skipped: no draw (effCount = 0)
and no adjustment. -/
theorem c6_day_effect (cfg : GenConfig) (ints : ℕ → ℕ) (g : Rng)
    (fuel : ℕ) (df : List Obs)
    (h : generate_crp_data cfg ints g fuel = some df)
    (idx d : ℕ) (hidx : idx < 2 * cfg.n_per_group) (hd : d < 8) :
    (let de := cfg.day_effects
     let preVal := (dayCrp g
       (cfg.baseline_mean + cfg.baseline_sd * g.nrm (idx * patNrm de))
       (0 + 35 * g.nrm (idx * patNrm de + 1))
       (if idx < cfg.n_per_group then cfg.peak_treated else cfg.peak_control)
       (if idx < cfg.n_per_group then cfg.decay_treated else cfg.decay_control)
       d (phaseNoiseIdx de idx d, idx * 9 + exBeforeDay d)).1
     let m := 0.5 + 0.5 * g.ex (floorExIdx idx d)
     let z := g.nrm (phaseNoiseIdx de idx d + 1)
     (∀ e : ℝ, de.lookup d = some e → 0 < e →
       effCount de d = 1 ∧
       ∃ row, df[8 * idx + d]? = some row ∧
         row.crp = some (round2 (max m
           (if idx < cfg.n_per_group then preVal - (e + e * 0.3 * z)
            else preVal + e * 0.3 * z)))) ∧
     ((de.lookup d = none ∨ (∃ e : ℝ, de.lookup d = some e ∧ e ≤ 0)) →
       effCount de d = 0 ∧
       ∃ row, df[8 * idx + d]? = some row ∧
         row.crp = some (round2 (max m preVal)))) := by
  obtain ⟨ids, halloc, hlen, hnd, hdflen, hrow⟩ :=
    generate_row cfg ints g fuel df h
  have hidx' : idx < ids.length := by omega
  have hr := hrow idx d hidx' hd
  rw [simObs_fst] at hr
  constructor
  · intro e hl he
    refine ⟨by unfold effCount; rw [hl]; simp [he], _, hr, ?_⟩
    simp only [floorExIdx, phaseNoiseIdx]
    congr 2
    congr 1
    unfold dayEffectValue
    rw [hl]
    simp only [he, if_true]
    by_cases ht : idx < cfg.n_per_group <;> simp [ht]
  · intro hcase
    have heq : dayEffectValue cfg.day_effects (decide (idx < cfg.n_per_group)) d
        (dayCrp g
          (cfg.baseline_mean + cfg.baseline_sd * g.nrm (idx * patNrm cfg.day_effects))
          (0 + 35 * g.nrm (idx * patNrm cfg.day_effects + 1))
          (if idx < cfg.n_per_group then cfg.peak_treated else cfg.peak_control)
          (if idx < cfg.n_per_group then cfg.decay_treated else cfg.decay_control)
          d (idx * patNrm cfg.day_effects + 2 + nrmBeforeDay cfg.day_effects d,
             idx * 9 + exBeforeDay d)).1
        (g.nrm (idx * patNrm cfg.day_effects + 2 + nrmBeforeDay cfg.day_effects d + 1))
        = (dayCrp g
          (cfg.baseline_mean + cfg.baseline_sd * g.nrm (idx * patNrm cfg.day_effects))
          (0 + 35 * g.nrm (idx * patNrm cfg.day_effects + 1))
          (if idx < cfg.n_per_group then cfg.peak_treated else cfg.peak_control)
          (if idx < cfg.n_per_group then cfg.decay_treated else cfg.decay_control)
          d (idx * patNrm cfg.day_effects + 2 + nrmBeforeDay cfg.day_effects d,
             idx * 9 + exBeforeDay d)).1 := by
      unfold dayEffectValue
      rcases hcase with hnone | ⟨e, hsome, he⟩
      · rw [hnone]
      · rw [hsome]
        simp [not_lt.mpr he]
    have hcnt : effCount cfg.day_effects d = 0 := by
      unfold effCount
      rcases hcase with hnone | ⟨e, hsome, he⟩
      · rw [hnone]
      · rw [hsome]
        simp [not_lt.mpr he]
    refine ⟨hcnt, _, hr, ?_⟩
    simp only [floorExIdx, phaseNoiseIdx]
    rw [heq]

theorem allocateIds_attempts (ints : ℕ → ℕ) (count : ℕ) :
    ∀ (fuel a : ℕ) (ids : List ℕ),
      allocateIds ints count (a * count) fuel = some ids →
      ∃ a', a ≤ a' ∧ ids = drawBatch ints (a' * count) count ∧
        ids.Nodup ∧
        ∀ b, a ≤ b → b < a' → ¬ (drawBatch ints (b * count) count).Nodup := by
  intro fuel
  induction fuel with
  | zero => intro a ids h; simp [allocateIds] at h
  | succ fuel ih =>
    intro a ids h
    unfold allocateIds at h
    by_cases hnd : (drawBatch ints (a * count) count).Nodup
    · rw [if_pos hnd] at h
      cases h
      exact ⟨a, le_refl a, rfl, hnd, fun b hab hba => absurd hba (by omega)⟩
    · rw [if_neg hnd] at h
      have harith : a * count + count = (a + 1) * count := by ring
      rw [harith] at h
      obtain ⟨a', ha₁, ha₂, ha₃, ha₄⟩ := ih (a + 1) ids h
      refine ⟨a', by omega, ha₂, ha₃, ?_⟩
      intro b hab hba
      by_cases hb : b = a
      · rw [hb]; exact hnd
      · exact ha₄ b (by omega) hba

/-- C8: a successful batch of patient identifiers consists of pairwise
distinct positive integers of the form 64 followed by six zero-padded
digits, i.e. integers in [64000000, 64999999]; and it is the first whole
batch without a collision: every earlier attempt is discarded as a whole
(attempt b consumed the `count` raw draws at positions [b*count,
(b+1)*count) and was rejected because that entire batch had a
collision). -/
theorem c8_id_allocation (ints : ℕ → ℕ) (count fuel : ℕ) (ids : List ℕ)
    (h : allocateIds ints count 0 fuel = some ids) :
    ids.length = count ∧ ids.Nodup ∧
    (∀ pid ∈ ids, 0 < pid ∧ 64000000 ≤ pid ∧ pid ≤ 64999999) ∧
    ∃ a, ids = drawBatch ints (a * count) count ∧
      ∀ b < a, ¬ (drawBatch ints (b * count) count).Nodup := by
  have h0 : allocateIds ints count (0 * count) fuel = some ids := by
    rw [Nat.zero_mul]; exact h
  obtain ⟨a, _, hbatch, hnd, hfail⟩ := allocateIds_attempts ints count fuel 0 ids h0
  refine ⟨?_, hnd, ?_, a, hbatch, fun b hb => hfail b (Nat.zero_le b) hb⟩
  · rw [hbatch]
    simp [drawBatch]
  · intro pid hpid
    rw [hbatch] at hpid
    simp only [drawBatch, List.mem_map, List.mem_range] at hpid
    obtain ⟨t, _, hpt⟩ := hpid
    unfold generate_patient_id at hpt
    have hmod : ints (a * count + t) % 1000000 < 1000000 :=
      Nat.mod_lt _ (by omega)
    omega

/-- The synthetic per-patient series [150, 120, 90, 80] on days 0..3. -/
def seriesBelow : List Obs :=
  [⟨1, StudyGroup.treated, 0, some 150⟩, ⟨1, StudyGroup.treated, 1, some 120⟩,
   ⟨1, StudyGroup.treated, 2, some 90⟩, ⟨1, StudyGroup.treated, 3, some 80⟩]

/-- The synthetic per-patient series [150, 140, 130] on days 0..2. -/
def seriesNever : List Obs :=
  [⟨1, StudyGroup.treated, 0, some 150⟩, ⟨1, StudyGroup.treated, 1, some 140⟩,
   ⟨1, StudyGroup.treated, 2, some 130⟩]

/-- C3: time_to_normalize returns the minimum day whose crp is strictly
below 100, and none (NaN) when no observation is below the threshold; in
particular [150, 120, 90, 80] on days 0..3 gives day 2 and [150, 140, 130]
gives none. -/
theorem c3_time_to_normalize :
    (∀ rows : List Obs, (time_to_normalize rows = none ↔
        ∀ r ∈ rows, ∀ c : ℝ, r.crp = some c → 100 ≤ c)) ∧
    (∀ (rows : List Obs) (d : ℕ), (time_to_normalize rows = some d ↔
        ((∃ r ∈ rows, r.day = d ∧ ∃ c : ℝ, r.crp = some c ∧ c < 100) ∧
         ∀ r ∈ rows, ∀ c : ℝ, r.crp = some c → c < 100 → d ≤ r.day))) ∧
    time_to_normalize seriesBelow = some 2 ∧
    time_to_normalize seriesNever = none := by
  have hP : ∀ r : Obs, ((match r.crp with
      | some c => decide (c < 100)
      | none => false) = true ↔ ∃ c : ℝ, r.crp = some c ∧ c < 100) := by
    intro r
    cases hc : r.crp with
    | none => simp
    | some c => simp
  have hA : ∀ rows : List Obs, (time_to_normalize rows = none ↔
      ∀ r ∈ rows, ∀ c : ℝ, r.crp = some c → 100 ≤ c) := by
    intro rows
    unfold time_to_normalize
    rw [List.min?_eq_none_iff, List.map_eq_nil_iff, List.filter_eq_nil_iff]
    constructor
    · intro hall r hr c hc
      by_contra hlt
      exact hall r hr ((hP r).mpr ⟨c, hc, by linarith⟩)
    · intro hall r hr hpred
      obtain ⟨c, hc, hlt⟩ := (hP r).mp hpred
      exact absurd (hall r hr c hc) (by linarith)
  have hB : ∀ (rows : List Obs) (d : ℕ), (time_to_normalize rows = some d ↔
      ((∃ r ∈ rows, r.day = d ∧ ∃ c : ℝ, r.crp = some c ∧ c < 100) ∧
       ∀ r ∈ rows, ∀ c : ℝ, r.crp = some c → c < 100 → d ≤ r.day)) := by
    intro rows d
    unfold time_to_normalize
    rw [List.min?_eq_some_iff']
    constructor
    · intro ⟨hmem, hmin⟩
      constructor
      · obtain ⟨r, hrf, hrd⟩ := List.mem_map.mp hmem
        obtain ⟨hrr, hpred⟩ := List.mem_filter.mp hrf
        exact ⟨r, hrr, hrd, (hP r).mp hpred⟩
      · intro r hr c hc hlt
        exact hmin r.day (List.mem_map.mpr ⟨r,
          List.mem_filter.mpr ⟨hr, (hP r).mpr ⟨c, hc, hlt⟩⟩, rfl⟩)
    · intro ⟨⟨r, hrr, hrd, hex⟩, hmin⟩
      constructor
      · exact List.mem_map.mpr ⟨r,
          List.mem_filter.mpr ⟨hrr, (hP r).mpr hex⟩, hrd⟩
      · intro b hb
        obtain ⟨r', hr'f, hr'd⟩ := List.mem_map.mp hb
        obtain ⟨hr'r, hpred'⟩ := List.mem_filter.mp hr'f
        obtain ⟨c', hc', hlt'⟩ := (hP r').mp hpred'
        exact hr'd ▸ hmin r' hr'r c' hc' hlt'
  refine ⟨hA, hB, ?_, ?_⟩
  · rw [hB]
    constructor
    · refine ⟨⟨1, StudyGroup.treated, 2, some 90⟩, ?_, rfl, 90, rfl, by norm_num⟩
      simp [seriesBelow]
    · intro r hr c hc hlt
      fin_cases hr <;> simp_all <;> linarith
  · rw [hA]
    intro r hr c hc
    fin_cases hr <;> simp_all <;> linarith

theorem seqOpt_map_some {α β : Type} (f : α → β) (l : List α) :
    seqOpt (l.map fun a => some (f a)) = some (l.map f) := by
  induction l with
  | nil => rfl
  | cons a l ih => simp [seqOpt, ih]

theorem ttest_ind_left_nil (pv : ℕ → ℝ → ℝ) (ys : List (Option ℝ)) :
    ttest_ind pv [] ys = ⟨none, none⟩ := by
  unfold ttest_ind
  have h0 : seqOpt ([] : List (Option ℝ)) = some [] := rfl
  rw [h0]
  cases hys : seqOpt ys with
  | none => rfl
  | some b => simp

theorem ttest_ind_right_nil (pv : ℕ → ℝ → ℝ) (xs : List (Option ℝ)) :
    ttest_ind pv xs [] = ⟨none, none⟩ := by
  unfold ttest_ind
  have h0 : seqOpt ([] : List (Option ℝ)) = some [] := rfl
  rw [h0]
  cases hxs : seqOpt xs with
  | none => rfl
  | some a => simp

/-- C5: the time-to-normalization comparison is skipped — reported as the
(NaN, NaN) pair, without invoking the t-test — whenever, after dropping
null time-to-normalize values, either group keeps at most 1 value; when
both groups keep more than 1 value the t-test is performed: the reported
pair is exactly scipy's ttest_ind on the two surviving samples (whose own
NaN outcomes, if any, are then the test's). -/
theorem c5_ttn_skip_policy (pv : ℕ → ℝ → ℝ) (df : List Obs) :
    (((days_to_normalize df StudyGroup.treated).length ≤ 1 ∨
      (days_to_normalize df StudyGroup.control).length ≤ 1) →
      analyze_data_ttn pv df = ⟨none, none⟩) ∧
    (1 < (days_to_normalize df StudyGroup.treated).length →
     1 < (days_to_normalize df StudyGroup.control).length →
      analyze_data_ttn pv df =
        ttest_ind pv
          ((days_to_normalize df StudyGroup.treated).map fun d : ℕ => some (d : ℝ))
          ((days_to_normalize df StudyGroup.control).map fun d : ℕ => some (d : ℝ))) := by
  constructor
  · intro hle
    unfold analyze_data_ttn
    rw [if_neg (by omega)]
  · intro hT hC
    unfold analyze_data_ttn
    rw [if_pos ⟨hT, hC⟩]

/-- C4 (amended): the per-day t-test loop is total — it raises nothing.
For every distinct day of the dataset a record is produced (so a
degenerate day does not stop the other days from being tested), and when
either group has no observations on that day the day's record carries a
NaN (none) p-value instead of an error: the repository defines no
InsufficientDataError at all. -/
theorem c4_perday_nan_policy (pv : ℕ → ℝ → ℝ) (df : List Obs) :
    (analyze_crp_data_ttests pv df).length = (daysOf df).length ∧
    (∀ d ∈ daysOf df, ∃ rec ∈ analyze_crp_data_ttests pv df, rec.day = d ∧
      ((((df.filter fun r => decide (r.day = d)).filter fun r =>
          decide (r.group = StudyGroup.treated)) = [] ∨
        ((df.filter fun r => decide (r.day = d)).filter fun r =>
          decide (r.group = StudyGroup.control)) = []) →
        rec.p_value = none)) := by
  constructor
  · unfold analyze_crp_data_ttests
    rw [List.length_map]
  · intro d hd
    refine ⟨_, List.mem_map.mpr ⟨d, hd, rfl⟩, rfl, ?_⟩
    intro hcase
    show (ttest_ind pv _ _).pvalue = none
    rcases hcase with hT | hC
    · rw [hT]
      show (ttest_ind pv [] _).pvalue = none
      rw [ttest_ind_left_nil]
    · rw [hC]
      show (ttest_ind pv _ ([].map Obs.crp)).pvalue = none
      rw [show ([].map Obs.crp : List (Option ℝ)) = [] from rfl,
        ttest_ind_right_nil]

/-- A p-value function fixture (its values are irrelevant to the claims). -/
def pv0 : ℕ → ℝ → ℝ := fun _ _ => 0

/-- A dataset whose day 0 has only a treated observation (control empty on
day 0) while day 1 has two observations per group, with within-group
variance so the day-1 test is non-degenerate (scipy would compute a finite
statistic there). -/
def df4 : List Obs :=
  [⟨1, StudyGroup.treated, 0, some 150⟩,
   ⟨1, StudyGroup.treated, 1, some 1⟩,
   ⟨2, StudyGroup.treated, 1, some 3⟩,
   ⟨3, StudyGroup.control, 1, some 5⟩,
   ⟨4, StudyGroup.control, 1, some 7⟩]

theorem daysOf_df4 : daysOf df4 = [0, 1] := by decide

/-- C4 counterexample: on `df4` the per-day loop runs to completion and
returns plain records — day 0, where the control group is empty, gets a
NaN (none) p-value rather than any error, and day 1 is still tested (its
finite-sample, positive-variance t-test runs, with p-value pv0 2 t = 0
under the pv0 fixture). -/
theorem c4_insufficient_data_counterexample :
    analyze_crp_data_ttests pv0 df4 =
      [⟨0, none, some 150, none⟩, ⟨1, some 0, some 2, some 6⟩] := by
  have hm150 : meanSkipNA [some (150 : ℝ)] = some 150 := by
    unfold meanSkipNA
    norm_num [List.filterMap]
  have hm2 : meanSkipNA [some (1 : ℝ), some 3] = some 2 := by
    unfold meanSkipNA
    norm_num [List.filterMap]
  have hm6 : meanSkipNA [some (5 : ℝ), some 7] = some 6 := by
    unfold meanSkipNA
    norm_num [List.filterMap]
  have hmnil : meanSkipNA ([] : List (Option ℝ)) = none := rfl
  have hp1 : (ttest_ind pv0 [some (1 : ℝ), some 3]
      [some (5 : ℝ), some 7]).pvalue = some 0 := by
    have hseq1 : seqOpt [some (1 : ℝ), some 3] = some [1, 3] := rfl
    have hseq2 : seqOpt [some (5 : ℝ), some 7] = some [5, 7] := rfl
    unfold ttest_ind
    rw [hseq1, hseq2]
    norm_num [pv0]
  unfold analyze_crp_data_ttests
  rw [daysOf_df4]
  simp only [List.map_cons, List.map_nil]
  have hf0 : (df4.filter fun r => decide (r.day = 0)) =
      [⟨1, StudyGroup.treated, 0, some 150⟩] := rfl
  have hf1 : (df4.filter fun r => decide (r.day = 1)) =
      [⟨1, StudyGroup.treated, 1, some 1⟩,
       ⟨2, StudyGroup.treated, 1, some 3⟩,
       ⟨3, StudyGroup.control, 1, some 5⟩,
       ⟨4, StudyGroup.control, 1, some 7⟩] := rfl
  rw [hf0, hf1]
  have ht0 : (([(⟨1, StudyGroup.treated, 0, some 150⟩ : Obs)].filter fun r =>
      decide (r.group = StudyGroup.treated)).map Obs.crp) = [some 150] := rfl
  have hc0 : (([(⟨1, StudyGroup.treated, 0, some 150⟩ : Obs)].filter fun r =>
      decide (r.group = StudyGroup.control)).map Obs.crp) = [] := rfl
  have ht1 : ((([⟨1, StudyGroup.treated, 1, some 1⟩,
      ⟨2, StudyGroup.treated, 1, some 3⟩,
      ⟨3, StudyGroup.control, 1, some 5⟩,
      ⟨4, StudyGroup.control, 1, some 7⟩] : List Obs).filter fun r =>
      decide (r.group = StudyGroup.treated)).map Obs.crp) =
      [some 1, some 3] := rfl
  have hc1 : ((([⟨1, StudyGroup.treated, 1, some 1⟩,
      ⟨2, StudyGroup.treated, 1, some 3⟩,
      ⟨3, StudyGroup.control, 1, some 5⟩,
      ⟨4, StudyGroup.control, 1, some 7⟩] : List Obs).filter fun r =>
      decide (r.group = StudyGroup.control)).map Obs.crp) =
      [some 5, some 7] := rfl
  rw [ht0, hc0, ht1, hc1, ttest_ind_right_nil, hp1, hm150, hmnil, hm2, hm6]

/-- C9: the Descriptive Engine is a pure function of the dataset: it hands
the dataset back unchanged, and running it again on what the first run
left behind reproduces the identical summary table and missing-value
counts. -/
theorem c9_descriptive_pure (df : List Obs) :
    (descriptiveEngine df).2 = df ∧
    (descriptiveEngine ((descriptiveEngine df).2)).1.1 = (descriptiveEngine df).1.1 ∧
    (descriptiveEngine ((descriptiveEngine df).2)).1.2 = (descriptiveEngine df).1.2 :=
  ⟨rfl, rfl, rfl⟩

/-- C1: what the code's fit step does, against the claimed chain.  The
fit step of analyze_data performs exactly one optimizer call — Nelder-Mead
with no iteration bound — for every fit environment; in an environment
where a quasi-Newton (lbfgs) attempt would succeed but the Nelder-Mead
attempt fails, the code's fit step fails while the spec's claimed fallback
chain would succeed.  No ModelFitError (and no fallback) exists in the
code. -/
theorem c1_fitter_code_vs_claim :
    (∀ (α : Type) (fit : OptimizerCall → Option α),
      analyze_data_fit fit = (fit ⟨"nm", none⟩, [⟨"nm", none⟩])) ∧
    ((analyze_data_fit (fun c => if c.method = "lbfgs" then some () else none)).1
        = none ∧
     (analyze_data_fit (fun c => if c.method = "lbfgs" then some () else none)).2
        = [⟨"nm", none⟩] ∧
     specFitChain (fun c => if c.method = "lbfgs" then some () else none)
        = some ()) := by
  refine ⟨fun α fit => rfl, ?_, rfl, ?_⟩
  · show (if ("nm" : String) = "lbfgs" then some () else none) = none
    rw [if_neg (by decide)]
  · show (match (if ("lbfgs" : String) = "lbfgs" then some () else none) with
      | some r => some r
      | none => (if ("nm" : String) = "lbfgs" then some () else none)) = some ()
    rw [if_pos rfl]

/-- Fixture: the default-like config with a positive day effect on day 3. -/
def cfg1 : GenConfig := ⟨1, 5, 2, 150, 180, 1, 1, [(3, 15)]⟩

noncomputable def df1 : List Obs :=
  (simPatients cfg1 g0 ([64000000, 64000001].enum) (0, 0)).1

theorem h1 : generate_crp_data cfg1 ints0 g0 1 = some df1 := by
  unfold generate_crp_data df1
  have h2 : 2 * cfg1.n_per_group = 2 := rfl
  rw [h2, alloc0]

theorem c2_trajectory_formula_witness : ∃ row, df0[0]? = some row := by
  obtain ⟨⟨row, hrow, _⟩, _⟩ :=
    c2_trajectory_formula cfg0 ints0 g0 1 df0 h0 0 0 (by decide) (by decide)
  exact ⟨row, hrow⟩

theorem c3_time_to_normalize_witness :
    time_to_normalize seriesBelow = some 2 ∧
    time_to_normalize seriesNever = none :=
  ⟨c3_time_to_normalize.2.2.1, c3_time_to_normalize.2.2.2⟩

theorem c4_perday_nan_policy_witness :
    ∃ rec ∈ analyze_crp_data_ttests pv0 df4, rec.day = 0 := by
  obtain ⟨rec, hmem, hday, _⟩ :=
    (c4_perday_nan_policy pv0 df4).2 0 (by rw [daysOf_df4]; simp)
  exact ⟨rec, hmem, hday⟩

theorem c5_ttn_skip_policy_witness :
    analyze_data_ttn pv0 [] = ⟨none, none⟩ := by
  refine (c5_ttn_skip_policy pv0 []).1 (Or.inl ?_)
  rw [show days_to_normalize [] StudyGroup.treated = [] from rfl]
  simp

theorem c6_day_effect_witness :
    effCount cfg1.day_effects 3 = 1 ∧ ∃ row, df1[3]? = some row := by
  obtain ⟨hpos, _⟩ :=
    c6_day_effect cfg1 ints0 g0 1 df1 h1 0 3 (by decide) (by decide)
  obtain ⟨hcnt, row, hrow, _⟩ := hpos 15 rfl (by norm_num)
  exact ⟨hcnt, row, by simpa using hrow⟩

theorem c7_schema_invariants_witness :
    df0.length = 2 * cfg0.n_per_group * 8 :=
  (c7_schema_invariants cfg0 ints0 g0 1 df0 h0 (by decide)
    (fun m => le_refl 0)).1

theorem c8_id_allocation_witness :
    allocateIds ints0 4 0 1 =
      some [64000000, 64000001, 64000002, 64000003] ∧
    ([64000000, 64000001, 64000002, 64000003] : List ℕ).Nodup :=
  ⟨by decide, (c8_id_allocation ints0 4 1 _ (by decide)).2.1⟩

theorem c10_group_assignment_order_witness :
    ∃ ids, allocateIds ints0 (2 * cfg0.n_per_group) 0 1 = some ids := by
  obtain ⟨ids, ha, _⟩ := c10_group_assignment_order cfg0 ints0 g0 1 df0 h0
  exact ⟨ids, ha⟩
